import Mathlib

/-!
Verification of the cross-repository example of bazel-contrib/vscode-bazel:
the `Logger` class (examples/cpp_external_dependencies/external_local_repo/logger)
and the two formatter functions `format_lower_case` / `format_upper_case`
(examples/cpp_external_dependencies/external_local_repo/formatter), together
with the `main` of examples/cpp_external_dependencies/main_repo/src/main.cc.

Strings are modelled as `List Char`; an output stream (`std::ostream`) is the
list of characters written to it so far; the collection of streams in the
process is a heap indexed by `Nat`, and `std::cout` is the stream at index 0.
The formatters use a default-constructed `std::locale`, i.e. the classic "C"
locale at program start, whose `toupper`/`tolower` map only the ASCII letter
ranges and leave every other character unchanged.
-/

/-- The newline character emitted by `std::endl`. -/
def nl : Char := Char.ofNat 10

/-- `std::tolower(c, loc)` in the classic "C" locale: maps `A`..`Z` to
`a`..`z` and leaves every other character unchanged. -/
def locale_tolower (c : Char) : Char :=
  if 65 ≤ c.toNat ∧ c.toNat ≤ 90 then Char.ofNat (c.toNat + 32) else c

/-- `std::toupper(c, loc)` in the classic "C" locale: maps `a`..`z` to
`A`..`Z` and leaves every other character unchanged. -/
def locale_toupper (c : Char) : Char :=
  if 97 ≤ c.toNat ∧ c.toNat ≤ 122 then Char.ofNat (c.toNat - 32) else c

/-- `format_lower_case` (format_lower_case.cc): loops over the characters of
`value` in order, appending `std::tolower(value[i], loc)` for each index to a
string stream, and returns the accumulated stream. -/
def format_lower_case : List Char → List Char
  | [] => []
  | c :: rest => locale_tolower c :: format_lower_case rest

/-- `format_upper_case` (format_upper_case.cc): loops over the characters of
`value` in order, appending `std::toupper(value[i], loc)` for each index to a
string stream, and returns the accumulated stream. -/
def format_upper_case : List Char → List Char
  | [] => []
  | c :: rest => locale_toupper c :: format_upper_case rest

/-- A heap of output streams: each `Nat` names one `std::ostream`, valued at
the characters written to it so far. -/
def Heap : Type := Nat → List Char

/-- `stream << s` on the stream named `r`: appends `s` to that stream and
leaves every other stream unchanged. -/
def writeStream (h : Heap) (r : Nat) (s : List Char) : Heap :=
  fun x => if x = r then h x ++ s else h x

/-- The `Logger` class (logger.hh): its only data member is the stream
pointer `_log`. -/
structure Logger where
  _log : Nat
  deriving DecidableEq

/-- `Logger::Logger(std::ostream &str)` (logger.cc): stores the address of
the given stream in `_log`. Total: construction never fails. -/
def Logger.ctor (strRef : Nat) : Logger :=
  { _log := strRef }

/-- `Logger::info` (logger.cc): `log() << "[Info]" << msg << std::endl`.
The returned `Logger` is the post-state of the object (the body never
reassigns `_log`); the returned `Heap` reflects the write to the sink. -/
def Logger.info (l : Logger) (msg : List Char) (h : Heap) : Logger × Heap :=
  (l, writeStream h l._log ("[Info]".data ++ msg ++ [nl]))

/-- `Logger::warn` (logger.cc): `log() << "[Warn]" << msg << std::endl`. -/
def Logger.warn (l : Logger) (msg : List Char) (h : Heap) : Logger × Heap :=
  (l, writeStream h l._log ("[Warn]".data ++ msg ++ [nl]))

/-- `Logger::err` (logger.cc): `log() << "[Err]" << msg << std::endl`. -/
def Logger.err (l : Logger) (msg : List Char) (h : Heap) : Logger × Heap :=
  (l, writeStream h l._log ("[Err]".data ++ msg ++ [nl]))

/-- The stream name of `std::cout`. -/
def coutRef : Nat := 0

/-- The heap at process start: every stream is empty. -/
def emptyHeap : Heap := fun _ => []

/-- `main` (main_repo/src/main.cc): prints the greeting, constructs a
`Logger` on `std::cout`, logs the three literal messages, prints a blank
line, then logs the formatted literals. Returns the final heap. -/
def mainRun : Heap :=
  let h0 := writeStream emptyHeap coutRef ("Hello world".data ++ [nl])
  let lg := Logger.ctor coutRef
  let p1 := lg.info "I'm using the logger from the external repo".data h0
  let p2 := p1.1.warn "And there were no errors!".data p1.2
  let p3 := p2.1.err "Well, except this one...".data p2.2
  let h4 := writeStream p3.2 coutRef [nl]
  let p5 := p3.1.info (format_upper_case "GoEs to UppEr Case".data) h4
  let p6 := p5.1.info (format_lower_case "GoEs to LoWER Case".data) p5.2
  p6.2

/-- The characters a call appended to the stream named `r`: the new contents
of `r` with the old contents dropped from the front. -/
def appendedText (oldh newh : Heap) (r : Nat) : List Char :=
  (newh r).drop (oldh r).length

/-- A chunk of stream output forming exactly one line: it contains exactly
one newline, placed at its end. -/
def isOneLine (s : List Char) : Prop :=
  s.count nl = 1 ∧ s.getLast? = some nl

instance (s : List Char) : Decidable (isOneLine s) := by
  unfold isOneLine; infer_instance

/-- A character is ASCII. -/
def isAscii (c : Char) : Prop := c.toNat < 128

instance (c : Char) : Decidable (isAscii c) := by
  unfold isAscii; infer_instance

/-- A character with no case mapping in the classic locale: neither an
uppercase nor a lowercase ASCII letter. -/
def isCaseless (c : Char) : Prop :=
  ¬(65 ≤ c.toNat ∧ c.toNat ≤ 90) ∧ ¬(97 ≤ c.toNat ∧ c.toNat ≤ 122)

instance (c : Char) : Decidable (isCaseless c) := by
  unfold isCaseless; infer_instance

/-- One call to a `Logger` method, with its message. -/
inductive LogCall : Type
  | info (msg : List Char) : LogCall
  | warn (msg : List Char) : LogCall
  | err (msg : List Char) : LogCall

/-- Run a sequence of `Logger` method calls, threading the object state and
the heap. -/
def runCalls (l : Logger) (h : Heap) : List LogCall → Logger × Heap
  | [] => (l, h)
  | LogCall.info m :: rest => runCalls (l.info m h).1 (l.info m h).2 rest
  | LogCall.warn m :: rest => runCalls (l.warn m h).1 (l.warn m h).2 rest
  | LogCall.err m :: rest => runCalls (l.err m h).1 (l.err m h).2 rest

section Helpers

theorem char_case_ofNat_upper (n : Nat) (h1 : 65 ≤ n) (h2 : n ≤ 90) :
    locale_toupper (locale_tolower (Char.ofNat n)) = locale_toupper (Char.ofNat n) := by
  interval_cases n <;> decide

theorem char_upper_lower (c : Char) :
    locale_toupper (locale_tolower c) = locale_toupper c := by
  by_cases hu : 65 ≤ c.toNat ∧ c.toNat ≤ 90
  · have h := char_case_ofNat_upper c.toNat hu.1 hu.2
    rwa [Char.ofNat_toNat] at h
  · have h : locale_tolower c = c := by
      unfold locale_tolower
      rw [if_neg hu]
    rw [h]

theorem char_case_ofNat_idem (n : Nat) (h1 : 97 ≤ n) (h2 : n ≤ 122) :
    locale_toupper (locale_toupper (Char.ofNat n)) = locale_toupper (Char.ofNat n) := by
  interval_cases n <;> decide

theorem char_upper_idem (c : Char) :
    locale_toupper (locale_toupper c) = locale_toupper c := by
  by_cases hl : 97 ≤ c.toNat ∧ c.toNat ≤ 122
  · have h := char_case_ofNat_idem c.toNat hl.1 hl.2
    rwa [Char.ofNat_toNat] at h
  · have h : locale_toupper c = c := by
      unfold locale_toupper
      rw [if_neg hl]
    rw [h, h]

theorem format_lower_get (v : List Char) (i : Nat) :
    (format_lower_case v).get? i = Option.map locale_tolower (v.get? i) := by
  induction v generalizing i with
  | nil => simp [format_lower_case]
  | cons c rest ih =>
    cases i with
    | zero => simp [format_lower_case]
    | succ n => simpa [format_lower_case] using ih n

theorem format_upper_get (v : List Char) (i : Nat) :
    (format_upper_case v).get? i = Option.map locale_toupper (v.get? i) := by
  induction v generalizing i with
  | nil => simp [format_upper_case]
  | cons c rest ih =>
    cases i with
    | zero => simp [format_upper_case]
    | succ n => simpa [format_upper_case] using ih n

theorem format_lower_length (v : List Char) :
    (format_lower_case v).length = v.length := by
  induction v with
  | nil => rfl
  | cons c rest ih => simp [format_lower_case, ih]

theorem format_upper_length (v : List Char) :
    (format_upper_case v).length = v.length := by
  induction v with
  | nil => rfl
  | cons c rest ih => simp [format_upper_case, ih]

theorem format_upper_lower (v : List Char) :
    format_upper_case (format_lower_case v) = format_upper_case v := by
  induction v with
  | nil => rfl
  | cons c rest ih =>
    show locale_toupper (locale_tolower c) :: format_upper_case (format_lower_case rest)
        = locale_toupper c :: format_upper_case rest
    rw [char_upper_lower, ih]

theorem format_upper_idem (v : List Char) :
    format_upper_case (format_upper_case v) = format_upper_case v := by
  induction v with
  | nil => rfl
  | cons c rest ih =>
    show locale_toupper (locale_toupper c) :: format_upper_case (format_upper_case rest)
        = locale_toupper c :: format_upper_case rest
    rw [char_upper_idem, ih]

theorem caseless_char_fixed (c : Char) (h : isCaseless c) :
    locale_tolower c = c ∧ locale_toupper c = c := by
  obtain ⟨h1, h2⟩ := h
  constructor
  · unfold locale_tolower
    rw [if_neg h1]
  · unfold locale_toupper
    rw [if_neg h2]

theorem appendedText_writeStream (h : Heap) (r : Nat) (s : List Char) :
    appendedText h (writeStream h r s) r = s := by
  unfold appendedText writeStream
  simp

theorem isOneLine_tagged (tag m : List Char) (htag : tag.count nl = 0) (hm : nl ∉ m) :
    isOneLine (tag ++ m ++ [nl]) := by
  constructor
  · rw [List.count_append, List.count_append, htag, List.count_eq_zero.mpr hm]
    rfl
  · exact List.getLast?_concat _

end Helpers

/-- C1: for every message, `Logger.info`, `Logger.warn` and `Logger.err`
write to the bound sink exactly the label `[Info]` / `[Warn]` / `[Err]`,
immediately followed by the message and a terminating newline. -/
theorem logger_writes_label_msg_newline (l : Logger) (msg : List Char) (h : Heap) :
    (l.info msg h).2 l._log = h l._log ++ "[Info]".data ++ msg ++ [nl] ∧
    (l.warn msg h).2 l._log = h l._log ++ "[Warn]".data ++ msg ++ [nl] ∧
    (l.err msg h).2 l._log = h l._log ++ "[Err]".data ++ msg ++ [nl] := by
  refine ⟨?_, ?_, ?_⟩ <;>
    simp [Logger.info, Logger.warn, Logger.err, writeStream, List.append_assoc]

set_option maxRecDepth 20000 in
/-- C2: running `main` leaves on standard output, in order: the greeting
line, the three logged literals with labels Info, Warn, Err, a blank line,
then the info lines carrying the uppercased and lowercased literals. -/
theorem main_transcript :
    mainRun coutRef =
      ("Hello world\n[Info]I'm using the logger from the external repo\n[Warn]And there were no errors!\n[Err]Well, except this one...\n\n[Info]GOES TO UPPER CASE\n[Info]goes to lower case\n").data := by
  decide

/-- C3: both formatters transform the input one character at a time: the
output at position `i` is the per-character case mapping of the input
character at position `i`, and nothing else. -/
theorem formatters_charwise (v : List Char) (i : Nat) :
    (format_lower_case v).get? i = Option.map locale_tolower (v.get? i) ∧
    (format_upper_case v).get? i = Option.map locale_toupper (v.get? i) :=
  ⟨format_lower_get v i, format_upper_get v i⟩

/-- C4: on ASCII input, upper-casing after lower-casing agrees with
upper-casing directly, and upper-casing is idempotent. -/
theorem ascii_case_roundtrip (v : List Char) (h : ∀ c ∈ v, isAscii c) :
    format_upper_case (format_lower_case v) = format_upper_case v ∧
    format_upper_case (format_upper_case v) = format_upper_case v :=
  ⟨format_upper_lower v, format_upper_idem v⟩

theorem ascii_case_roundtrip_witness :
    (∀ c ∈ "GoEs To 123".data, isAscii c) ∧
    (format_upper_case (format_lower_case "GoEs To 123".data) =
        format_upper_case "GoEs To 123".data ∧
      format_upper_case (format_upper_case "GoEs To 123".data) =
        format_upper_case "GoEs To 123".data) :=
  ⟨by decide, ascii_case_roundtrip ("GoEs To 123".data) (by decide)⟩

/-- C5: a string all of whose characters have no case mapping (digits,
punctuation, spaces, ...) is a fixed point of both formatters. -/
theorem caseless_strings_fixed (v : List Char) (h : ∀ c ∈ v, isCaseless c) :
    format_lower_case v = v ∧ format_upper_case v = v := by
  induction v with
  | nil => exact ⟨rfl, rfl⟩
  | cons c rest ih =>
    have hc := caseless_char_fixed c (h c (List.mem_cons_self c rest))
    have hr := ih (fun d hd => h d (List.mem_cons_of_mem c hd))
    constructor
    · show locale_tolower c :: format_lower_case rest = c :: rest
      rw [hc.1, hr.1]
    · show locale_toupper c :: format_upper_case rest = c :: rest
      rw [hc.2, hr.2]

theorem caseless_strings_fixed_witness :
    (∀ c ∈ "12 34!?".data, isCaseless c) ∧
    (format_lower_case "12 34!?".data = "12 34!?".data ∧
      format_upper_case "12 34!?".data = "12 34!?".data) :=
  ⟨by decide, caseless_strings_fixed ("12 34!?".data) (by decide)⟩

theorem writeStream_append_only (h : Heap) (rh r : Nat) (s : List Char) :
    ∃ t, writeStream h rh s r = h r ++ t := by
  unfold writeStream
  by_cases hr : r = rh
  · exact ⟨s, by rw [if_pos hr]⟩
  · exact ⟨[], by rw [if_neg hr, List.append_nil]⟩

theorem runCalls_fst (cs : List LogCall) :
    ∀ (l : Logger) (h : Heap), (runCalls l h cs).1 = l := by
  induction cs with
  | nil => intro l h; rfl
  | cons c rest ih =>
    intro l h
    cases c with
    | info m => exact ih l (l.info m h).2
    | warn m => exact ih l (l.warn m h).2
    | err m => exact ih l (l.err m h).2

/-- C6 counterexample: a message containing a newline makes `info` append two
lines, not one: with message `a\nb` the appended text `[Info]a\nb\n` holds two
newlines, so the call does not append exactly one newline-terminated line. -/
theorem logger_one_line_counterexample :
    ¬ isOneLine (appendedText emptyHeap
      ((Logger.ctor 0).info ("a".data ++ [nl] ++ "b".data) emptyHeap).2 0) := by
  decide

/-- C6 (amended): for messages free of newline characters, each Logger call
appends exactly one newline-terminated line to the bound sink, every stream
only ever grows by appending, and calling info, warn, err in sequence leaves
the three labelled lines on the sink in exactly that order. -/
theorem logger_appends_lines (l : Logger) (h : Heap) (m1 m2 m3 : List Char)
    (hm1 : nl ∉ m1) (hm2 : nl ∉ m2) (hm3 : nl ∉ m3) :
    (isOneLine (appendedText h (l.info m1 h).2 l._log) ∧
      isOneLine (appendedText h (l.warn m2 h).2 l._log) ∧
      isOneLine (appendedText h (l.err m3 h).2 l._log)) ∧
    (∀ r, (∃ s, (l.info m1 h).2 r = h r ++ s) ∧
      (∃ s, (l.warn m2 h).2 r = h r ++ s) ∧
      (∃ s, (l.err m3 h).2 r = h r ++ s)) ∧
    (runCalls l h [LogCall.info m1, LogCall.warn m2, LogCall.err m3]).2 l._log =
      h l._log ++ "[Info]".data ++ m1 ++ [nl] ++ "[Warn]".data ++ m2 ++ [nl]
        ++ "[Err]".data ++ m3 ++ [nl] := by
  refine ⟨⟨?_, ?_, ?_⟩, ?_, ?_⟩
  · show isOneLine (appendedText h (writeStream h l._log ("[Info]".data ++ m1 ++ [nl])) l._log)
    rw [appendedText_writeStream]
    exact isOneLine_tagged _ _ (by decide) hm1
  · show isOneLine (appendedText h (writeStream h l._log ("[Warn]".data ++ m2 ++ [nl])) l._log)
    rw [appendedText_writeStream]
    exact isOneLine_tagged _ _ (by decide) hm2
  · show isOneLine (appendedText h (writeStream h l._log ("[Err]".data ++ m3 ++ [nl])) l._log)
    rw [appendedText_writeStream]
    exact isOneLine_tagged _ _ (by decide) hm3
  · intro r
    exact ⟨writeStream_append_only h l._log r _,
      writeStream_append_only h l._log r _,
      writeStream_append_only h l._log r _⟩
  · simp [runCalls, Logger.info, Logger.warn, Logger.err, writeStream, List.append_assoc]

theorem logger_appends_lines_witness :
    (nl ∉ "a".data ∧ nl ∉ "b".data ∧ nl ∉ "c".data) ∧
    ((isOneLine (appendedText emptyHeap
        ((Logger.ctor 0).info "a".data emptyHeap).2 (Logger.ctor 0)._log) ∧
      isOneLine (appendedText emptyHeap
        ((Logger.ctor 0).warn "b".data emptyHeap).2 (Logger.ctor 0)._log) ∧
      isOneLine (appendedText emptyHeap
        ((Logger.ctor 0).err "c".data emptyHeap).2 (Logger.ctor 0)._log)) ∧
    (∀ r, (∃ s, ((Logger.ctor 0).info "a".data emptyHeap).2 r = emptyHeap r ++ s) ∧
      (∃ s, ((Logger.ctor 0).warn "b".data emptyHeap).2 r = emptyHeap r ++ s) ∧
      (∃ s, ((Logger.ctor 0).err "c".data emptyHeap).2 r = emptyHeap r ++ s)) ∧
    (runCalls (Logger.ctor 0) emptyHeap
        [LogCall.info "a".data, LogCall.warn "b".data, LogCall.err "c".data]).2
        (Logger.ctor 0)._log =
      emptyHeap (Logger.ctor 0)._log ++ "[Info]".data ++ "a".data ++ [nl]
        ++ "[Warn]".data ++ "b".data ++ [nl] ++ "[Err]".data ++ "c".data ++ [nl]) :=
  ⟨⟨by decide, by decide, by decide⟩,
    logger_appends_lines (Logger.ctor 0) emptyHeap ("a".data) ("b".data) ("c".data)
      (by decide) (by decide) (by decide)⟩

/-- C7: the two concrete formatter evaluations performed by `main`:
upper-casing `GoEs to UppEr Case` yields `GOES TO UPPER CASE` and
lower-casing `GoEs to LoWER Case` yields `goes to lower case`. -/
theorem formatter_literal_eval :
    format_upper_case "GoEs to UppEr Case".data = "GOES TO UPPER CASE".data ∧
    format_lower_case "GoEs to LoWER Case".data = "goes to lower case".data :=
  ⟨by decide, by decide⟩

/-- C8: a Logger wraps exactly the sink reference it was constructed on,
construction is a total function, the sink reference is the Logger entire
state, and no sequence of info/warn/err calls ever changes the object. -/
theorem logger_immutable (r : Nat) (l : Logger) (h : Heap) (cs : List LogCall) :
    (Logger.ctor r)._log = r ∧
    (∀ l1 l2 : Logger, l1._log = l2._log → l1 = l2) ∧
    (runCalls l h cs).1 = l := by
  refine ⟨rfl, ?_, runCalls_fst cs l h⟩
  intro l1 l2 he
  cases l1
  cases l2
  cases he
  rfl

theorem logger_immutable_witness :
    (Logger.ctor 3)._log = 3 ∧
    (∀ l1 l2 : Logger, l1._log = l2._log → l1 = l2) ∧
    (runCalls (Logger.ctor 3) emptyHeap
      [LogCall.info "x".data, LogCall.warn "y".data]).1 = Logger.ctor 3 :=
  logger_immutable 3 (Logger.ctor 3) emptyHeap
    [LogCall.info "x".data, LogCall.warn "y".data]

/-- C9: the formatters are pure: a result exists for every input (no error
path) and equal inputs always give equal outputs (determinism). -/
theorem formatters_pure (v w : List Char) (hvw : v = w) :
    format_lower_case v = format_lower_case w ∧
    format_upper_case v = format_upper_case w ∧
    (∃ r, format_lower_case v = r) ∧ (∃ r, format_upper_case v = r) := by
  subst hvw
  exact ⟨rfl, rfl, ⟨_, rfl⟩, ⟨_, rfl⟩⟩

theorem formatters_pure_witness :
    ("aB".data = "aB".data) ∧
    (format_lower_case "aB".data = format_lower_case "aB".data ∧
      format_upper_case "aB".data = format_upper_case "aB".data ∧
      (∃ r, format_lower_case "aB".data = r) ∧
      (∃ r, format_upper_case "aB".data = r)) :=
  ⟨rfl, formatters_pure ("aB".data) ("aB".data) rfl⟩

/-- C10: both formatters preserve the length of their input, and both map the
empty string to the empty string. -/
theorem formatters_length_preserved (v : List Char) :
    (format_lower_case v).length = v.length ∧
    (format_upper_case v).length = v.length ∧
    format_lower_case [] = [] ∧ format_upper_case [] = [] :=
  ⟨format_lower_length v, format_upper_length v, rfl, rfl⟩
